import Mathlib

/-!
# LevelDB C boundary layer (`cpp-leveldb-wrapper`)

A shallow embedding of `leveldb_wrapper.cpp`, `batch_wrapper.cpp` and
`iterator_wrapper.cpp`.  The storage engine itself is external: its classes
(`leveldb::DB`, `leveldb::Iterator`, `leveldb::WriteBatch::Handler`) are
interfaces whose implementations are parameters of the embedding, and its
value types (`Status`, `Options`, `WriteBatch`) are small models.

Conventions.
* A `const char*` argument is the byte sequence readable from that address;
  `Slice p n` is the view of its first `n` bytes.
* A `T*` that may be null is an `Option`.
* `leveldb_error_t` objects live in a `Heap`; `new` appends an object and
  yields its index, so two distinct objects never share a pointer.
* A `leveldb_error_t**` argument is `Option ErrPtr`: `none` is a null
  `errptr`, `some p` is a slot currently holding the pointer `p`.  Functions
  return the content of the slot after the call.
-/

namespace LevelDBWrapper

/-! ## Bytes and C strings -/

/-- One C `char`, seen as an unsigned byte. -/
abbrev Byte := Fin 256

/-- A byte sequence (`std::string` contents, or memory behind a `char*`). -/
abbrev Bytes := List Byte

/-- The bytes of an ASCII literal. -/
def ascii (s : String) : Bytes :=
  s.toList.map (fun c => Fin.ofNat c.toNat)

/-- The view `leveldb::Slice(data, n)`: the first `n` bytes behind `data`.
A length beyond the readable memory is outside the model. -/
def Slice (data : Bytes) (n : Nat) : Bytes :=
  data.take n

/-- The array `std::string::c_str()` exposes: the contents plus a terminator. -/
def c_str (s : Bytes) : Bytes :=
  s ++ [0]

/-- The bytes `strcpy` writes to its destination: everything in `src` before
the first zero byte, then the terminating zero byte. -/
def strcpy (src : Bytes) : Bytes :=
  src.takeWhile (fun b => b != 0) ++ [0]

/-- The C string stored in a buffer: the bytes before the first zero byte. -/
def c_string (buf : Bytes) : Bytes :=
  buf.takeWhile (fun b => b != 0)

/-! ## Engine value types -/

/-- Modelled from the spec: the kinds of result the external engine reports
(`leveldb::Status` is declared by the engine, not under src/).  Success, the
`NotFound` outcome of a point read, and the failure kinds behind the spec's
`OpenError`, `WriteError`, `ReadError` and `IteratorError`. -/
inductive Code where
  | kOk
  | kNotFound
  | kCorruption
  | kNotSupported
  | kInvalidArgument
  | kIOError
deriving DecidableEq, Repr

/-- Modelled from the spec: an engine status/result (`leveldb::Status`, declared
by the external engine, not under src/): a kind together with the
engine-sourced detail text. -/
structure Status where
  code : Code
  msg : Bytes
deriving DecidableEq, Repr

namespace Status

/-- The success status. -/
def OK : Status := ⟨Code.kOk, []⟩

/-- Engine constructor for a `NotFound` status. -/
def NotFound (msg : Bytes) : Status := ⟨Code.kNotFound, msg⟩

/-- Engine constructor for an I/O failure. -/
def IOError (msg : Bytes) : Status := ⟨Code.kIOError, msg⟩

/-- Engine constructor for an invalid-argument failure. -/
def InvalidArgument (msg : Bytes) : Status := ⟨Code.kInvalidArgument, msg⟩

/-- Whether the status is a success: `Status::ok()`. -/
def ok (s : Status) : Bool :=
  s.code == Code.kOk

/-- Whether the status is the `NotFound` outcome: `Status::IsNotFound()`. -/
def IsNotFound (s : Status) : Bool :=
  s.code == Code.kNotFound

/-- Modelled from the spec: the human-readable, engine-sourced text of a status
(`Status::ToString()`, declared by the external engine, not under src/): the
word `OK` for success, otherwise the name of the failure kind followed by the
detail text, so the text of a failure is never empty. -/
def ToString (s : Status) : Bytes :=
  match s.code with
  | Code.kOk => ascii "OK"
  | Code.kNotFound => ascii "NotFound: " ++ s.msg
  | Code.kCorruption => ascii "Corruption: " ++ s.msg
  | Code.kNotSupported => ascii "Not implemented: " ++ s.msg
  | Code.kInvalidArgument => ascii "Invalid argument: " ++ s.msg
  | Code.kIOError => ascii "IO error: " ++ s.msg

end Status

/-- Modelled from the spec: the engine's compression kinds
(`leveldb::CompressionType`, declared by the external engine, not under src/):
none, or the default fast compression. -/
inductive CompressionType where
  | kNoCompression
  | kSnappyCompression
deriving DecidableEq, Repr

/-- Modelled from the spec: the engine's native open configuration
(`leveldb::Options`, declared by the external engine, not under src/), with the
fields the translator assigns. -/
structure Options where
  create_if_missing : Bool
  error_if_exists : Bool
  paranoid_checks : Bool
  write_buffer_size : Nat
  max_open_files : Int
  block_size : Nat
  block_restart_interval : Int
  max_file_size : Nat
  compression : CompressionType
deriving DecidableEq, Repr

/-- Modelled from the spec: the default-constructed `leveldb::Options` (the
constructor belongs to the external engine, not under src/), carrying the
documented defaults: write-buffer-size 4 MiB, max-open-files 1000, block-size
4096 bytes, block-restart-interval 16, max-file-size 2 MiB, fast compression
enabled; the three flags are off. -/
def Options.new : Options :=
  { create_if_missing := false
    error_if_exists := false
    paranoid_checks := false
    write_buffer_size := 4 * 1024 * 1024
    max_open_files := 1000
    block_size := 4 * 1024
    block_restart_interval := 16
    max_file_size := 2 * 1024 * 1024
    compression := CompressionType.kSnappyCompression }

/-- Modelled from the spec: the engine's native read configuration
(`leveldb::ReadOptions`, declared by the external engine, not under src/). -/
structure ReadOptions where
  verify_checksums : Bool
  fill_cache : Bool
deriving DecidableEq, Repr

/-- Modelled from the spec: the default-constructed `leveldb::ReadOptions`
(external engine, not under src/): fill-cache true, verify-checksums false. -/
def ReadOptions.new : ReadOptions :=
  { verify_checksums := false, fill_cache := true }

/-- Modelled from the spec: the engine's native write configuration
(`leveldb::WriteOptions`, declared by the external engine, not under src/). -/
structure WriteOptions where
  sync : Bool
deriving DecidableEq, Repr

/-- Modelled from the spec: the default-constructed `leveldb::WriteOptions`
(external engine, not under src/): sync false. -/
def WriteOptions.new : WriteOptions :=
  { sync := false }

/-! ## Flat configuration objects (`leveldb_wrapper.h`) -/

/-- The struct `leveldb_options_t`; `int` fields are integers, `size_t` fields
are naturals. -/
structure leveldb_options_t where
  create_if_missing : Int
  error_if_exists : Int
  paranoid_checks : Int
  write_buffer_size : Nat
  max_open_files : Int
  block_size : Nat
  block_restart_interval : Int
  max_file_size : Nat
  compression : Int
deriving DecidableEq, Repr

/-- The struct `leveldb_readoptions_t`. -/
structure leveldb_readoptions_t where
  verify_checksums : Int
  fill_cache : Int
deriving DecidableEq, Repr

/-- The struct `leveldb_writeoptions_t`. -/
structure leveldb_writeoptions_t where
  sync : Int
deriving DecidableEq, Repr

/-- The implicit C++ conversion from `int` to `bool`. -/
def intToBool (x : Int) : Bool :=
  x != 0

/-! ## Configuration translator (`leveldb_wrapper.cpp`) -/

/-- The function `convert_options`. -/
def convert_options (options : Option leveldb_options_t) : Options :=
  let opts := Options.new
  match options with
  | some o =>
    let opts := { opts with create_if_missing := intToBool o.create_if_missing }
    let opts := { opts with error_if_exists := intToBool o.error_if_exists }
    let opts := { opts with paranoid_checks := intToBool o.paranoid_checks }
    let opts := { opts with write_buffer_size := o.write_buffer_size }
    let opts := { opts with max_open_files := o.max_open_files }
    let opts := { opts with block_size := o.block_size }
    let opts := { opts with block_restart_interval := o.block_restart_interval }
    let opts := { opts with max_file_size := o.max_file_size }
    if o.compression = 0 then
      { opts with compression := CompressionType.kNoCompression }
    else if o.compression = 1 then
      { opts with compression := CompressionType.kSnappyCompression }
    else
      { opts with compression := CompressionType.kSnappyCompression }
  | none => opts

/-- The function `convert_read_options`. -/
def convert_read_options (options : Option leveldb_readoptions_t) : ReadOptions :=
  let opts := ReadOptions.new
  match options with
  | some o =>
    let opts := { opts with verify_checksums := intToBool o.verify_checksums }
    { opts with fill_cache := intToBool o.fill_cache }
  | none => opts

/-- The function `convert_write_options`. -/
def convert_write_options (options : Option leveldb_writeoptions_t) : WriteOptions :=
  let opts := WriteOptions.new
  match options with
  | some o => { opts with sync := intToBool o.sync }
  | none => opts

/-- The function `leveldb_options_create` (the object it allocates). -/
def leveldb_options_create : leveldb_options_t :=
  { create_if_missing := 0
    error_if_exists := 0
    paranoid_checks := 0
    write_buffer_size := 4 <<< 20
    max_open_files := 1000
    block_size := 4096
    block_restart_interval := 16
    max_file_size := 2 <<< 20
    compression := 1 }

/-- The function `leveldb_readoptions_create` (the object it allocates). -/
def leveldb_readoptions_create : leveldb_readoptions_t :=
  { verify_checksums := 0
    fill_cache := 1 }

/-- The function `leveldb_writeoptions_create` (the object it allocates). -/
def leveldb_writeoptions_create : leveldb_writeoptions_t :=
  { sync := 0 }

/-! ## Error objects (`leveldb_wrapper.h`, `leveldb_wrapper.cpp`) -/

/-- The struct `leveldb_error_t`.  The field holds the bytes of the `char`
array from its start through the terminating zero byte. -/
structure leveldb_error_t where
  message : Bytes
deriving DecidableEq, Repr

/-- The `leveldb_error_t` objects allocated so far, in allocation order. -/
abbrev Heap := List leveldb_error_t

/-- A `leveldb_error_t*`: null, or the index of an object of the heap. -/
abbrev ErrPtr := Option Nat

/-- The function `create_error`: allocates one object whose message array has
`message.length() + 1` bytes and receives `strcpy` of `message.c_str()`.
Returns the new pointer and the heap after the allocation. -/
def create_error (message : Bytes) (heap : Heap) : Nat × Heap :=
  let err : leveldb_error_t := { message := strcpy (c_str message) }
  (heap.length, heap ++ [err])

/-! ## Engine interfaces -/

/-- Modelled from the spec: the ordered log of operations a MutationBatch
holds (`leveldb::WriteBatch` is declared by the external engine, not under
src/): each entry is either `Put(key, value)` or `Delete(key)`. -/
inductive BatchOp where
  | put (key : Bytes) (value : Bytes)
  | delete (key : Bytes)
deriving DecidableEq, Repr

/-- Modelled from the spec: the visitor interface of batch replay
(`leveldb::WriteBatch::Handler`, declared by the external engine, not under
src/), acting on a caller world `W`. -/
structure Handler (W : Type) where
  Put : Bytes → Bytes → W → W
  Delete : Bytes → W → W

/-- Modelled from the spec: the engine's MutationBatch (`leveldb::WriteBatch`,
declared by the external engine, not under src/): an ordered sequence of
operations. -/
structure WriteBatch where
  rep : List BatchOp
deriving DecidableEq, Repr

namespace WriteBatch

/-- Modelled from the spec: `WriteBatch::Put` (external engine, not under src/)
appends in call order. -/
def Put (b : WriteBatch) (key value : Bytes) : WriteBatch :=
  { rep := b.rep ++ [BatchOp.put key value] }

/-- Modelled from the spec: `WriteBatch::Delete` (external engine, not under
src/) appends in call order. -/
def Delete (b : WriteBatch) (key : Bytes) : WriteBatch :=
  { rep := b.rep ++ [BatchOp.delete key] }

/-- Modelled from the spec: `WriteBatch::Clear` (external engine, not under
src/) resets the batch to empty. -/
def Clear (_b : WriteBatch) : WriteBatch :=
  { rep := [] }

/-- Modelled from the spec: `WriteBatch::Iterate` (external engine, not under
src/) replays the batch in original order, invoking the visitor's Put or Delete
entry point once per entry. -/
def Iterate {W : Type} (b : WriteBatch) (handler : Handler W) (w : W) : W :=
  b.rep.foldl
    (fun acc op =>
      match op with
      | BatchOp.put k v => handler.Put k v acc
      | BatchOp.delete k => handler.Delete k acc)
    w

end WriteBatch

/-- The abstract class `leveldb::DB` as the wrapper uses it: the virtual
methods of an engine whose state has type `σ`.  Each method returns the
engine's status and the state after the call.  `Get` also returns what it left
in the caller's initially empty `std::string`; `Write` receives the batch by
non-const pointer and so also returns the batch after the call. -/
structure DB (σ : Type) where
  Put : WriteOptions → Bytes → Bytes → σ → Status × σ
  Delete : WriteOptions → Bytes → σ → Status × σ
  Write : WriteOptions → WriteBatch → σ → Status × σ × WriteBatch
  Get : ReadOptions → Bytes → σ → Status × Bytes × σ

/-! ## Handles (`leveldb_wrapper.cpp`) -/

/-- The struct `leveldb_t`: owns the engine. -/
structure leveldb_t (σ : Type) where
  db : σ

/-- The struct `leveldb_iterator_t`: owns an engine iterator. -/
structure leveldb_iterator_t (ι : Type) where
  iter : ι

/-- The struct `leveldb_writebatch_t`. -/
structure leveldb_writebatch_t where
  batch : WriteBatch
deriving DecidableEq, Repr

/-! ## Database operations (`leveldb_wrapper.cpp`) -/

/-- What `leveldb_open` leaves behind: the returned handle (`none` is
`nullptr`), the content of the error slot and the heap. -/
structure OpenResult (D : Type) where
  result : Option (leveldb_t D)
  errptr : Option ErrPtr
  heap : Heap

/-- The function `leveldb_open`.  `Open` is the engine's `DB::Open` in the
current environment: it returns the status and the pointer it stored in `db`.
Its `const std::string&` parameter is built from the C string `name`, so it
receives the bytes of `name` before the first zero byte. -/
def leveldb_open {D : Type} (Open : Options → Bytes → Status × D)
    (name : Bytes) (options : Option leveldb_options_t)
    (errptr : Option ErrPtr) (heap : Heap) : OpenResult D :=
  let opts := convert_options options
  let (status, db) := Open opts (c_string name)
  if !status.ok then
    match errptr with
    | some _ =>
      let (e, heap2) := create_error status.ToString heap
      { result := none, errptr := some (some e), heap := heap2 }
    | none => { result := none, errptr := none, heap := heap }
  else
    { result := some { db := db }, errptr := errptr, heap := heap }

/-- What a mutating operation leaves behind: the handle with the engine after
the call, the content of the error slot and the heap. -/
structure WriteResult (σ : Type) where
  db : leveldb_t σ
  errptr : Option ErrPtr
  heap : Heap

/-- The function `leveldb_put`. -/
def leveldb_put {σ : Type} (E : DB σ) (db : leveldb_t σ)
    (options : Option leveldb_writeoptions_t)
    (key : Bytes) (keylen : Nat) (val : Bytes) (vallen : Nat)
    (errptr : Option ErrPtr) (heap : Heap) : WriteResult σ :=
  let opts := convert_write_options options
  let k := Slice key keylen
  let v := Slice val vallen
  let (status, db2) := E.Put opts k v db.db
  if !status.ok && errptr.isSome then
    let (e, heap2) := create_error status.ToString heap
    { db := { db := db2 }, errptr := some (some e), heap := heap2 }
  else
    { db := { db := db2 }, errptr := errptr, heap := heap }

/-- What `leveldb_get` leaves behind: the returned buffer (`none` is
`nullptr`), the content of the length slot (`none` when `vallen` is null), the
content of the error slot, the heap and the handle. -/
structure GetResult (σ : Type) where
  result : Option Bytes
  vallen : Option Nat
  errptr : Option ErrPtr
  heap : Heap
  db : leveldb_t σ

/-- The function `leveldb_get`.  `vallen` is `none` for a null length slot and
`some n` for a slot currently holding `n`. -/
def leveldb_get {σ : Type} (E : DB σ) (db : leveldb_t σ)
    (options : Option leveldb_readoptions_t)
    (key : Bytes) (keylen : Nat)
    (vallen : Option Nat) (errptr : Option ErrPtr) (heap : Heap) : GetResult σ :=
  let opts := convert_read_options options
  let k := Slice key keylen
  let (status, value, db2) := E.Get opts k db.db
  if !status.ok then
    match errptr with
    | some _ =>
      let (e, heap2) := create_error status.ToString heap
      { result := none, vallen := vallen, errptr := some (some e), heap := heap2,
        db := { db := db2 } }
    | none =>
      { result := none, vallen := vallen, errptr := none, heap := heap,
        db := { db := db2 } }
  else
    let result := (c_str value).take value.length
    match vallen with
    | some _ =>
      { result := some result, vallen := some value.length, errptr := errptr,
        heap := heap, db := { db := db2 } }
    | none =>
      { result := some result, vallen := none, errptr := errptr,
        heap := heap, db := { db := db2 } }

/-- The function `leveldb_delete`. -/
def leveldb_delete {σ : Type} (E : DB σ) (db : leveldb_t σ)
    (options : Option leveldb_writeoptions_t)
    (key : Bytes) (keylen : Nat)
    (errptr : Option ErrPtr) (heap : Heap) : WriteResult σ :=
  let opts := convert_write_options options
  let k := Slice key keylen
  let (status, db2) := E.Delete opts k db.db
  if !status.ok && errptr.isSome then
    let (e, heap2) := create_error status.ToString heap
    { db := { db := db2 }, errptr := some (some e), heap := heap2 }
  else
    { db := { db := db2 }, errptr := errptr, heap := heap }

/-! ## Batch operations (`leveldb_wrapper.cpp`) -/

/-- The function `leveldb_writebatch_create`. -/
def leveldb_writebatch_create : leveldb_writebatch_t :=
  { batch := { rep := [] } }

/-- The function `leveldb_writebatch_clear`. -/
def leveldb_writebatch_clear (batch : leveldb_writebatch_t) : leveldb_writebatch_t :=
  { batch := batch.batch.Clear }

/-- The function `leveldb_writebatch_put`. -/
def leveldb_writebatch_put (batch : leveldb_writebatch_t)
    (key : Bytes) (keylen : Nat) (val : Bytes) (vallen : Nat) : leveldb_writebatch_t :=
  let k := Slice key keylen
  let v := Slice val vallen
  { batch := batch.batch.Put k v }

/-- The function `leveldb_writebatch_delete`. -/
def leveldb_writebatch_delete (batch : leveldb_writebatch_t)
    (key : Bytes) (keylen : Nat) : leveldb_writebatch_t :=
  let k := Slice key keylen
  { batch := batch.batch.Delete k }

/-- What `leveldb_write` leaves behind: the handle, the batch, the content of
the error slot and the heap. -/
structure BatchWriteResult (σ : Type) where
  db : leveldb_t σ
  batch : leveldb_writebatch_t
  errptr : Option ErrPtr
  heap : Heap

/-- The function `leveldb_write`. -/
def leveldb_write {σ : Type} (E : DB σ) (db : leveldb_t σ)
    (options : Option leveldb_writeoptions_t)
    (batch : leveldb_writebatch_t)
    (errptr : Option ErrPtr) (heap : Heap) : BatchWriteResult σ :=
  let opts := convert_write_options options
  let (status, db2, batch2) := E.Write opts batch.batch db.db
  if !status.ok && errptr.isSome then
    let (e, heap2) := create_error status.ToString heap
    { db := { db := db2 }, batch := { batch := batch2 }, errptr := some (some e),
      heap := heap2 }
  else
    { db := { db := db2 }, batch := { batch := batch2 }, errptr := errptr,
      heap := heap }

/-! ## Batch replay (`batch_wrapper.cpp`) -/

/-- The function-pointer type `leveldb_batch_handler_t`: a callback receives
the state pointer (of type `P`), the key pointer and length, the value pointer
(`none` is `nullptr`) and length, and acts on the caller world `W`. -/
abbrev leveldb_batch_handler_t (P W : Type) :=
  P → Option Bytes → Nat → Option Bytes → Nat → W → W

/-- The class `BatchHandler`: its constructor with the overrides `Put` and
`Delete`.  A null callback is `none`. -/
def BatchHandler {P W : Type} (state : P)
    (put_handler delete_handler : Option (leveldb_batch_handler_t P W)) : Handler W :=
  { Put := fun key value w =>
      match put_handler with
      | some f => f state (some key) key.length (some value) value.length w
      | none => w
    Delete := fun key w =>
      match delete_handler with
      | some f => f state (some key) key.length none 0 w
      | none => w }

/-- The function `leveldb_writebatch_iterate`: returns the batch and the
caller world after the replay. -/
def leveldb_writebatch_iterate {P W : Type} (batch : leveldb_writebatch_t) (state : P)
    (put_handler delete_handler : Option (leveldb_batch_handler_t P W))
    (w : W) : leveldb_writebatch_t × W :=
  let handler := BatchHandler state put_handler delete_handler
  (batch, batch.batch.Iterate handler w)

/-! ## Cursor status (`iterator_wrapper.cpp`) -/

/-- What `leveldb_iter_get_error` leaves behind. -/
structure IterErrorResult where
  errptr : Option ErrPtr
  heap : Heap

/-- The function `leveldb_iter_get_error`.  `status` is the virtual method
`leveldb::Iterator::status` of the engine iterator. -/
def leveldb_iter_get_error {ι : Type} (status : ι → Status)
    (iter : leveldb_iterator_t ι)
    (errptr : Option ErrPtr) (heap : Heap) : IterErrorResult :=
  let status := status iter.iter
  if !status.ok && errptr.isSome then
    let msg := status.ToString
    let err : leveldb_error_t := { message := strcpy (c_str msg) }
    { errptr := some (some heap.length), heap := heap ++ [err] }
  else
    { errptr := errptr, heap := heap }

/-! ## The engine's contract and a reference engine -/

/-- Modelled from the spec: the effect of one batch entry on the logical
content of a store (the engine applies entries, not src/): `Put` upserts the
key, `Delete` removes it. -/
def applyOp (content : Bytes → Option Bytes) (op : BatchOp) : Bytes → Option Bytes :=
  match op with
  | BatchOp.put k v => Function.update content k (some v)
  | BatchOp.delete k => Function.update content k none

/-- Modelled from the spec: what the boundary layer expects of the external
engine (not under src/), relative to a reading `view` of the engine state as a
map from keys to optional values.  A read of a stored key succeeds with the
stored bytes; a read of an absent key reports the `NotFound` status; a
successful `Put` upserts; a successful `Write` applies the batch entries in
append order; `Write` does not alter the entries of the batch it is given. -/
structure KVContract {σ : Type} (E : DB σ) (view : σ → Bytes → Option Bytes) : Prop where
  get_found : ∀ ro k s v, view s k = some v →
    (E.Get ro k s).1.ok = true ∧ (E.Get ro k s).2.1 = v
  get_absent : ∀ ro k s, view s k = none → (E.Get ro k s).1.IsNotFound = true
  put_ok : ∀ wo k v s, (E.Put wo k v s).1.ok = true →
    view (E.Put wo k v s).2 = Function.update (view s) k (some v)
  write_ok : ∀ wo b s, (E.Write wo b s).1.ok = true →
    view (E.Write wo b s).2.1 = b.rep.foldl applyOp (view s)
  write_batch : ∀ wo b s, (E.Write wo b s).2.2 = b

/-- State of the reference engine: an association list, newest entry first,
and a flag that makes every mutation fail with an I/O error. -/
structure MemState where
  entries : List (Bytes × Bytes)
  failing : Bool
deriving DecidableEq, Repr

/-- First value stored under `k`. -/
def memLookup (k : Bytes) : List (Bytes × Bytes) → Option Bytes
  | [] => none
  | (k2, v) :: rest => if k2 = k then some v else memLookup k rest

/-- Remove every entry stored under `k`. -/
def memErase (k : Bytes) : List (Bytes × Bytes) → List (Bytes × Bytes)
  | [] => []
  | (k2, v) :: rest => if k2 = k then memErase k rest else (k2, v) :: memErase k rest

/-- Apply one batch entry to the association list. -/
def memApply (entries : List (Bytes × Bytes)) (op : BatchOp) : List (Bytes × Bytes) :=
  match op with
  | BatchOp.put k v => (k, v) :: entries
  | BatchOp.delete k => memErase k entries

/-- The reading of a reference-engine state as a map from keys to optional
values. -/
def memView (s : MemState) (k : Bytes) : Option Bytes :=
  memLookup k s.entries

/-- The status the reference engine reports for a refused mutation. -/
def memFault : Status :=
  Status.IOError (ascii "store is read-only")

/-- The reference engine: an in-memory store. -/
def memDB : DB MemState :=
  { Put := fun _ k v s =>
      if s.failing then (memFault, s)
      else (Status.OK, { s with entries := memApply s.entries (BatchOp.put k v) })
    Delete := fun _ k s =>
      if s.failing then (memFault, s)
      else (Status.OK, { s with entries := memApply s.entries (BatchOp.delete k) })
    Write := fun _ b s =>
      if s.failing then (memFault, s, b)
      else (Status.OK, { s with entries := b.rep.foldl memApply s.entries }, b)
    Get := fun _ k s =>
      match memLookup k s.entries with
      | some v => (Status.OK, v, s)
      | none => (Status.NotFound [], [], s) }

/-- A reference engine without content that answers every call with the status
`st`. -/
def refusingDB (st : Status) : DB Unit :=
  { Put := fun _ _ _ s => (st, s)
    Delete := fun _ _ s => (st, s)
    Write := fun _ b s => (st, s, b)
    Get := fun _ _ s => (st, [], s) }

/-- The stores present in the reference environment, by path. -/
abbrev MemFS := List Bytes

/-- The reference `DB::Open` over an environment `fs`: an existing store opens
unless `error_if_exists` is set; a missing store is created only when
`create_if_missing` is set.  On failure the pointer it stores is null. -/
def memOpen (fs : MemFS) (opts : Options) (name : Bytes) : Status × Option MemState :=
  if name ∈ fs then
    if opts.error_if_exists then
      (Status.InvalidArgument (name ++ ascii ": exists (error_if_exists is true)"), none)
    else (Status.OK, some { entries := [], failing := false })
  else
    if opts.create_if_missing then (Status.OK, some { entries := [], failing := false })
    else
      (Status.InvalidArgument (name ++ ascii ": does not exist (create_if_missing is false)"),
        none)

/-- One call of the batch-building interface, with its pointer and length
arguments. -/
inductive BatchCall where
  | put (key : Bytes) (keylen : Nat) (val : Bytes) (vallen : Nat)
  | delete (key : Bytes) (keylen : Nat)
deriving DecidableEq, Repr

/-- Perform one batch-building call. -/
def BatchCall.run (batch : leveldb_writebatch_t) : BatchCall → leveldb_writebatch_t
  | BatchCall.put key keylen val vallen => leveldb_writebatch_put batch key keylen val vallen
  | BatchCall.delete key keylen => leveldb_writebatch_delete batch key keylen

/-- The batch entry a batch-building call denotes. -/
def BatchCall.entry : BatchCall → BatchOp
  | BatchCall.put key keylen val vallen => BatchOp.put (Slice key keylen) (Slice val vallen)
  | BatchCall.delete key keylen => BatchOp.delete (Slice key keylen)

/-- One observed callback invocation of a batch replay: which callback ran and
the five arguments it received. -/
structure Invocation (P : Type) where
  isPut : Bool
  state : P
  key : Option Bytes
  key_len : Nat
  value : Option Bytes
  value_len : Nat
deriving DecidableEq, Repr

/-- A put callback that records its invocation. -/
def recordPut {P : Type} : leveldb_batch_handler_t P (List (Invocation P)) :=
  fun state key key_len value value_len log =>
    log ++ [{ isPut := true, state := state, key := key, key_len := key_len,
              value := value, value_len := value_len }]

/-- A delete callback that records its invocation. -/
def recordDelete {P : Type} : leveldb_batch_handler_t P (List (Invocation P)) :=
  fun state key key_len value value_len log =>
    log ++ [{ isPut := false, state := state, key := key, key_len := key_len,
              value := value, value_len := value_len }]

/-- The invocation a batch entry is expected to cause. -/
def expectedInvocation {P : Type} (state : P) : BatchOp → Invocation P
  | BatchOp.put k v =>
    { isPut := true, state := state, key := some k, key_len := k.length,
      value := some v, value_len := v.length }
  | BatchOp.delete k =>
    { isPut := false, state := state, key := some k, key_len := k.length,
      value := none, value_len := 0 }

/-- The batch obtained from `b0` by `leveldb_writebatch_clear` followed by
`leveldb_writebatch_put(a, v1)`, `leveldb_writebatch_delete(a)` and
`leveldb_writebatch_put(a, v2)`, each with the exact lengths. -/
def putDeletePut (b0 : leveldb_writebatch_t) (a v1 v2 : Bytes) : leveldb_writebatch_t :=
  leveldb_writebatch_put
    (leveldb_writebatch_delete
      (leveldb_writebatch_put (leveldb_writebatch_clear b0) a a.length v1 v1.length)
      a a.length)
    a a.length v2 v2.length

/-- The effect on the caller world of the callback a batch-building call is
expected to trigger. -/
def replayCall {P W : Type} (state : P)
    (put_handler delete_handler : leveldb_batch_handler_t P W) (w : W) (c : BatchCall) : W :=
  match c with
  | BatchCall.put key keylen val vallen =>
    put_handler state (some (Slice key keylen)) (Slice key keylen).length
      (some (Slice val vallen)) (Slice val vallen).length w
  | BatchCall.delete key keylen =>
    delete_handler state (some (Slice key keylen)) (Slice key keylen).length none 0 w

/-! ## Auxiliary facts -/

theorem memLookup_memErase_self (k : Bytes) (l : List (Bytes × Bytes)) :
    memLookup k (memErase k l) = none := by
  induction l with
  | nil => rfl
  | cons hd tl ih =>
    obtain ⟨k2, v⟩ := hd
    by_cases h : k2 = k
    · simp [memErase, h, ih]
    · simp [memErase, memLookup, h, ih]

theorem memLookup_memErase_other (k j : Bytes) (hne : j ≠ k) (l : List (Bytes × Bytes)) :
    memLookup j (memErase k l) = memLookup j l := by
  induction l with
  | nil => rfl
  | cons hd tl ih =>
    obtain ⟨k2, v⟩ := hd
    by_cases h : k2 = k
    · subst h
      have hj : ¬ k2 = j := fun e => hne e.symm
      simp [memErase, memLookup, hj, ih]
    · by_cases hj : k2 = j
      · subst hj
        simp [memErase, memLookup, h]
      · simp [memErase, memLookup, h, hj, ih]

theorem memLookup_memApply (l : List (Bytes × Bytes)) (op : BatchOp) :
    (fun k => memLookup k (memApply l op)) = applyOp (fun k => memLookup k l) op := by
  funext j
  cases op with
  | put k v =>
    by_cases h : j = k
    · subst h
      simp [memApply, applyOp, memLookup]
    · have h2 : ¬ k = j := fun e => h e.symm
      simp [memApply, applyOp, memLookup, h, h2]
  | delete k =>
    by_cases h : j = k
    · subst h
      simp [memApply, applyOp, memLookup_memErase_self]
    · simp [memApply, applyOp, h, memLookup_memErase_other k j h]

theorem memLookup_foldl (ops : List BatchOp) (l : List (Bytes × Bytes)) :
    (fun k => memLookup k (ops.foldl memApply l))
      = ops.foldl applyOp (fun k => memLookup k l) := by
  induction ops generalizing l with
  | nil => rfl
  | cons op rest ih =>
    simp only [List.foldl_cons]
    rw [ih, memLookup_memApply]

/-- The reference engine honours the engine contract. -/
theorem memDB_contract : KVContract memDB memView := by
  refine ⟨?_, ?_, ?_, ?_, ?_⟩
  · intro ro k s v h
    simp only [memView] at h
    simp [memDB, h, Status.OK, Status.ok]
  · intro ro k s h
    simp only [memView] at h
    simp [memDB, h, Status.NotFound, Status.IsNotFound]
  · intro wo k v s h
    by_cases hf : s.failing = true
    · simp [memDB, hf, memFault, Status.IOError, Status.ok] at h
    · simp only [memDB, hf]
      exact memLookup_memApply s.entries (BatchOp.put k v)
  · intro wo b s h
    by_cases hf : s.failing = true
    · simp [memDB, hf, memFault, Status.IOError, Status.ok] at h
    · simp only [memDB, hf]
      exact memLookup_foldl b.rep s.entries
  · intro wo b s
    by_cases hf : s.failing = true <;> simp [memDB, hf]

theorem takeWhile_nonzero_append_zero (s : Bytes) :
    (s ++ [0]).takeWhile (fun b => b != 0) = s.takeWhile (fun b => b != 0) := by
  induction s with
  | nil => simp
  | cons b rest ih =>
    by_cases hb : b = 0
    · simp [List.takeWhile_cons, hb]
    · simp [List.takeWhile_cons, hb, ih]

theorem takeWhile_nonzero_of_zero_free (s : Bytes) (h : ∀ b ∈ s, b ≠ 0) :
    s.takeWhile (fun b => b != 0) = s := by
  induction s with
  | nil => rfl
  | cons b rest ih =>
    have hb : b ≠ 0 := h b (List.mem_cons_self b rest)
    have hrest : ∀ c ∈ rest, c ≠ 0 := fun c hc => h c (List.mem_cons_of_mem b hc)
    simp [List.takeWhile_cons, hb, ih hrest]

/-- The C string `create_error` stores is the C string of the text. -/
theorem c_string_strcpy_c_str (s : Bytes) :
    c_string (strcpy (c_str s)) = c_string s := by
  simp only [c_string, strcpy, c_str, takeWhile_nonzero_append_zero]
  induction s with
  | nil => simp
  | cons b rest ih =>
    by_cases hb : b = 0
    · simp [List.takeWhile_cons, hb]
    · simp [List.takeWhile_cons, hb, ih]

/-- What `create_error` stores: the text before its first zero byte, then the
terminator. -/
theorem strcpy_c_str_eq (s : Bytes) :
    strcpy (c_str s) = List.takeWhile (fun b => b != 0) s ++ [0] := by
  simp only [strcpy, c_str, takeWhile_nonzero_append_zero]

/-- On a text without a zero byte `strcpy` copies every byte. -/
theorem strcpy_c_str_of_zero_free (s : Bytes) (h : ∀ b ∈ s, b ≠ 0) :
    strcpy (c_str s) = c_str s := by
  simp only [strcpy, c_str, takeWhile_nonzero_append_zero,
    takeWhile_nonzero_of_zero_free s h]

/-- The text of a failure status starts with a non-zero byte. -/
theorem ToString_head_of_not_ok (st : Status) (h : st.ok = false) :
    ∃ b rest, st.ToString = b :: rest ∧ b ≠ 0 := by
  obtain ⟨code, msg⟩ := st
  cases code with
  | kOk => simp [Status.ok] at h
  | kNotFound => exact ⟨78, _, rfl, by decide⟩
  | kCorruption => exact ⟨67, _, rfl, by decide⟩
  | kNotSupported => exact ⟨78, _, rfl, by decide⟩
  | kInvalidArgument => exact ⟨73, _, rfl, by decide⟩
  | kIOError => exact ⟨73, _, rfl, by decide⟩

/-- The message made from a failure status is a non-empty C string. -/
theorem c_string_error_ne_nil (st : Status) (h : st.ok = false) :
    c_string (strcpy (c_str st.ToString)) ≠ [] := by
  obtain ⟨b, rest, hb, hne⟩ := ToString_head_of_not_ok st h
  rw [c_string_strcpy_c_str, hb]
  simp [c_string, List.takeWhile_cons, hne]

/-! ## The error channel, one operation at a time -/

theorem leveldb_put_of_ok {σ : Type} (E : DB σ) (db : leveldb_t σ)
    (options : Option leveldb_writeoptions_t) (key : Bytes) (keylen : Nat)
    (val : Bytes) (vallen : Nat) (errptr : Option ErrPtr) (heap : Heap)
    (hok : (E.Put (convert_write_options options) (Slice key keylen)
      (Slice val vallen) db.db).1.ok = true) :
    (leveldb_put E db options key keylen val vallen errptr heap).errptr = errptr ∧
    (leveldb_put E db options key keylen val vallen errptr heap).heap = heap := by
  rcases hE : E.Put (convert_write_options options) (Slice key keylen)
    (Slice val vallen) db.db with ⟨st, db2⟩
  rw [hE] at hok
  simp only at hok
  simp [leveldb_put, hE, hok]

theorem leveldb_put_of_fail {σ : Type} (E : DB σ) (db : leveldb_t σ)
    (options : Option leveldb_writeoptions_t) (key : Bytes) (keylen : Nat)
    (val : Bytes) (vallen : Nat) (slot : ErrPtr) (heap : Heap)
    (hok : (E.Put (convert_write_options options) (Slice key keylen)
      (Slice val vallen) db.db).1.ok = false) :
    (leveldb_put E db options key keylen val vallen (some slot) heap).errptr
      = some (some heap.length) ∧
    (leveldb_put E db options key keylen val vallen (some slot) heap).heap
      = heap ++ [{ message := strcpy (c_str (E.Put (convert_write_options options)
          (Slice key keylen) (Slice val vallen) db.db).1.ToString) }] := by
  rcases hE : E.Put (convert_write_options options) (Slice key keylen)
    (Slice val vallen) db.db with ⟨st, db2⟩
  rw [hE] at hok
  simp only at hok
  simp [leveldb_put, hE, hok, create_error]

theorem leveldb_delete_of_ok {σ : Type} (E : DB σ) (db : leveldb_t σ)
    (options : Option leveldb_writeoptions_t) (key : Bytes) (keylen : Nat)
    (errptr : Option ErrPtr) (heap : Heap)
    (hok : (E.Delete (convert_write_options options) (Slice key keylen) db.db).1.ok = true) :
    (leveldb_delete E db options key keylen errptr heap).errptr = errptr ∧
    (leveldb_delete E db options key keylen errptr heap).heap = heap := by
  rcases hE : E.Delete (convert_write_options options) (Slice key keylen) db.db
    with ⟨st, db2⟩
  rw [hE] at hok
  simp only at hok
  simp [leveldb_delete, hE, hok]

theorem leveldb_delete_of_fail {σ : Type} (E : DB σ) (db : leveldb_t σ)
    (options : Option leveldb_writeoptions_t) (key : Bytes) (keylen : Nat)
    (slot : ErrPtr) (heap : Heap)
    (hok : (E.Delete (convert_write_options options) (Slice key keylen) db.db).1.ok
      = false) :
    (leveldb_delete E db options key keylen (some slot) heap).errptr
      = some (some heap.length) ∧
    (leveldb_delete E db options key keylen (some slot) heap).heap
      = heap ++ [{ message := strcpy (c_str (E.Delete (convert_write_options options)
          (Slice key keylen) db.db).1.ToString) }] := by
  rcases hE : E.Delete (convert_write_options options) (Slice key keylen) db.db
    with ⟨st, db2⟩
  rw [hE] at hok
  simp only at hok
  simp [leveldb_delete, hE, hok, create_error]

theorem leveldb_write_of_ok {σ : Type} (E : DB σ) (db : leveldb_t σ)
    (options : Option leveldb_writeoptions_t) (batch : leveldb_writebatch_t)
    (errptr : Option ErrPtr) (heap : Heap)
    (hok : (E.Write (convert_write_options options) batch.batch db.db).1.ok = true) :
    (leveldb_write E db options batch errptr heap).errptr = errptr ∧
    (leveldb_write E db options batch errptr heap).heap = heap := by
  rcases hE : E.Write (convert_write_options options) batch.batch db.db
    with ⟨st, db2, b2⟩
  rw [hE] at hok
  simp only at hok
  simp [leveldb_write, hE, hok]

theorem leveldb_write_of_fail {σ : Type} (E : DB σ) (db : leveldb_t σ)
    (options : Option leveldb_writeoptions_t) (batch : leveldb_writebatch_t)
    (slot : ErrPtr) (heap : Heap)
    (hok : (E.Write (convert_write_options options) batch.batch db.db).1.ok = false) :
    (leveldb_write E db options batch (some slot) heap).errptr
      = some (some heap.length) ∧
    (leveldb_write E db options batch (some slot) heap).heap
      = heap ++ [{ message := strcpy (c_str (E.Write (convert_write_options options)
          batch.batch db.db).1.ToString) }] := by
  rcases hE : E.Write (convert_write_options options) batch.batch db.db
    with ⟨st, db2, b2⟩
  rw [hE] at hok
  simp only at hok
  simp [leveldb_write, hE, hok, create_error]

theorem leveldb_get_of_ok {σ : Type} (E : DB σ) (db : leveldb_t σ)
    (options : Option leveldb_readoptions_t) (key : Bytes) (keylen : Nat)
    (vallen : Option Nat) (errptr : Option ErrPtr) (heap : Heap)
    (hok : (E.Get (convert_read_options options) (Slice key keylen) db.db).1.ok = true) :
    (leveldb_get E db options key keylen vallen errptr heap).result
      = some (E.Get (convert_read_options options) (Slice key keylen) db.db).2.1 ∧
    (leveldb_get E db options key keylen vallen errptr heap).vallen
      = vallen.map (fun _ =>
          (E.Get (convert_read_options options) (Slice key keylen) db.db).2.1.length) ∧
    (leveldb_get E db options key keylen vallen errptr heap).errptr = errptr ∧
    (leveldb_get E db options key keylen vallen errptr heap).heap = heap := by
  rcases hE : E.Get (convert_read_options options) (Slice key keylen) db.db
    with ⟨st, value, db2⟩
  rw [hE] at hok
  simp only at hok
  cases vallen <;> simp [leveldb_get, hE, hok, c_str]

theorem leveldb_get_of_fail {σ : Type} (E : DB σ) (db : leveldb_t σ)
    (options : Option leveldb_readoptions_t) (key : Bytes) (keylen : Nat)
    (vallen : Option Nat) (slot : ErrPtr) (heap : Heap)
    (hok : (E.Get (convert_read_options options) (Slice key keylen) db.db).1.ok = false) :
    (leveldb_get E db options key keylen vallen (some slot) heap).result = none ∧
    (leveldb_get E db options key keylen vallen (some slot) heap).vallen = vallen ∧
    (leveldb_get E db options key keylen vallen (some slot) heap).errptr
      = some (some heap.length) ∧
    (leveldb_get E db options key keylen vallen (some slot) heap).heap
      = heap ++ [{ message := strcpy (c_str (E.Get (convert_read_options options)
          (Slice key keylen) db.db).1.ToString) }] := by
  rcases hE : E.Get (convert_read_options options) (Slice key keylen) db.db
    with ⟨st, value, db2⟩
  rw [hE] at hok
  simp only at hok
  simp [leveldb_get, hE, hok, create_error]

theorem leveldb_get_of_fail_null {σ : Type} (E : DB σ) (db : leveldb_t σ)
    (options : Option leveldb_readoptions_t) (key : Bytes) (keylen : Nat)
    (vallen : Option Nat) (heap : Heap)
    (hok : (E.Get (convert_read_options options) (Slice key keylen) db.db).1.ok = false) :
    (leveldb_get E db options key keylen vallen none heap).result = none ∧
    (leveldb_get E db options key keylen vallen none heap).vallen = vallen ∧
    (leveldb_get E db options key keylen vallen none heap).errptr = none ∧
    (leveldb_get E db options key keylen vallen none heap).heap = heap := by
  rcases hE : E.Get (convert_read_options options) (Slice key keylen) db.db
    with ⟨st, value, db2⟩
  rw [hE] at hok
  simp only at hok
  simp [leveldb_get, hE, hok]

theorem leveldb_open_of_ok {D : Type} (Open : Options → Bytes → Status × D)
    (name : Bytes) (options : Option leveldb_options_t)
    (errptr : Option ErrPtr) (heap : Heap)
    (hok : (Open (convert_options options) (c_string name)).1.ok = true) :
    (leveldb_open Open name options errptr heap).result
      = some { db := (Open (convert_options options) (c_string name)).2 } ∧
    (leveldb_open Open name options errptr heap).errptr = errptr ∧
    (leveldb_open Open name options errptr heap).heap = heap := by
  rcases hE : Open (convert_options options) (c_string name) with ⟨st, d⟩
  rw [hE] at hok
  simp only at hok
  simp [leveldb_open, hE, hok]

theorem leveldb_open_of_fail {D : Type} (Open : Options → Bytes → Status × D)
    (name : Bytes) (options : Option leveldb_options_t)
    (slot : ErrPtr) (heap : Heap)
    (hok : (Open (convert_options options) (c_string name)).1.ok = false) :
    (leveldb_open Open name options (some slot) heap).result = none ∧
    (leveldb_open Open name options (some slot) heap).errptr = some (some heap.length) ∧
    (leveldb_open Open name options (some slot) heap).heap
      = heap ++
        [{ message := strcpy (c_str (Open (convert_options options) (c_string name)).1.ToString) }] := by
  rcases hE : Open (convert_options options) (c_string name) with ⟨st, d⟩
  rw [hE] at hok
  simp only at hok
  simp [leveldb_open, hE, hok, create_error]

theorem leveldb_open_of_fail_null {D : Type} (Open : Options → Bytes → Status × D)
    (name : Bytes) (options : Option leveldb_options_t) (heap : Heap)
    (hok : (Open (convert_options options) (c_string name)).1.ok = false) :
    (leveldb_open Open name options none heap).result = none ∧
    (leveldb_open Open name options none heap).errptr = none ∧
    (leveldb_open Open name options none heap).heap = heap := by
  rcases hE : Open (convert_options options) (c_string name) with ⟨st, d⟩
  rw [hE] at hok
  simp only at hok
  simp [leveldb_open, hE, hok]

theorem leveldb_iter_get_error_of_ok {ι : Type} (status : ι → Status)
    (iter : leveldb_iterator_t ι) (errptr : Option ErrPtr) (heap : Heap)
    (hok : (status iter.iter).ok = true) :
    (leveldb_iter_get_error status iter errptr heap).errptr = errptr ∧
    (leveldb_iter_get_error status iter errptr heap).heap = heap := by
  simp [leveldb_iter_get_error, hok]

theorem leveldb_iter_get_error_of_fail {ι : Type} (status : ι → Status)
    (iter : leveldb_iterator_t ι) (slot : ErrPtr) (heap : Heap)
    (hok : (status iter.iter).ok = false) :
    (leveldb_iter_get_error status iter (some slot) heap).errptr
      = some (some heap.length) ∧
    (leveldb_iter_get_error status iter (some slot) heap).heap
      = heap ++ [{ message := strcpy (c_str (status iter.iter).ToString) }] := by
  simp [leveldb_iter_get_error, hok]

theorem convert_options_create_if_missing (o : leveldb_options_t) :
    (convert_options (some o)).create_if_missing = intToBool o.create_if_missing := by
  by_cases h0 : o.compression = 0
  · simp [convert_options, h0]
  · by_cases h1 : o.compression = 1 <;> simp [convert_options, h0, h1]

/-- A slot points to an object allocated by the call exactly when the call
failed, given how the call treats the slot and the heap in both cases. -/
theorem new_error_iff_failed (ok : Bool) (heap heapAfter : Heap)
    (slotAfter before : Option ErrPtr) (e : leveldb_error_t)
    (hsucc : ok = true → slotAfter = before ∧ heapAfter = heap)
    (hfail : ok = false → slotAfter = some (some heap.length) ∧ heapAfter = heap ++ [e]) :
    (∃ i, slotAfter = some (some i) ∧ heap.length ≤ i ∧ i < heapAfter.length)
      ↔ ok = false := by
  cases ok with
  | false =>
    obtain ⟨h1, h2⟩ := hfail rfl
    constructor
    · intro _
      rfl
    · intro _
      exact ⟨heap.length, h1, le_refl _, by rw [h2]; simp⟩
  | true =>
    obtain ⟨_, h2⟩ := hsucc rfl
    constructor
    · rintro ⟨i, _, hle, hlt⟩
      rw [h2] at hlt
      omega
    · intro h
      cases h

theorem ok_false_of_IsNotFound (st : Status) (h : st.IsNotFound = true) :
    st.ok = false := by
  obtain ⟨code, msg⟩ := st
  cases code <;> simp [Status.IsNotFound, Status.ok] at h ⊢

theorem leveldb_put_db {σ : Type} (E : DB σ) (db : leveldb_t σ)
    (options : Option leveldb_writeoptions_t) (key : Bytes) (keylen : Nat)
    (val : Bytes) (vallen : Nat) (errptr : Option ErrPtr) (heap : Heap) :
    (leveldb_put E db options key keylen val vallen errptr heap).db.db
      = (E.Put (convert_write_options options) (Slice key keylen)
          (Slice val vallen) db.db).2 := by
  rcases hE : E.Put (convert_write_options options) (Slice key keylen)
    (Slice val vallen) db.db with ⟨st, db2⟩
  simp only [leveldb_put, hE]
  split <;> rfl

theorem leveldb_write_db_batch {σ : Type} (E : DB σ) (db : leveldb_t σ)
    (options : Option leveldb_writeoptions_t) (batch : leveldb_writebatch_t)
    (errptr : Option ErrPtr) (heap : Heap) :
    (leveldb_write E db options batch errptr heap).db.db
      = (E.Write (convert_write_options options) batch.batch db.db).2.1 ∧
    (leveldb_write E db options batch errptr heap).batch.batch
      = (E.Write (convert_write_options options) batch.batch db.db).2.2 := by
  rcases hE : E.Write (convert_write_options options) batch.batch db.db
    with ⟨st, db2, b2⟩
  simp only [leveldb_write, hE]
  split <;> exact ⟨rfl, rfl⟩

theorem Slice_append_length (k rest : Bytes) : Slice (k ++ rest) k.length = k := by
  simp [Slice]

theorem foldl_run_rep (calls : List BatchCall) (b : leveldb_writebatch_t) :
    (calls.foldl BatchCall.run b).batch.rep = b.batch.rep ++ calls.map BatchCall.entry := by
  induction calls generalizing b with
  | nil => simp
  | cons c rest ih =>
    rw [List.foldl_cons, ih]
    cases c <;>
      simp [BatchCall.run, BatchCall.entry, leveldb_writebatch_put,
        leveldb_writebatch_delete, WriteBatch.Put, WriteBatch.Delete]

/-! ## Configuration translator: defaults and compression mapping -/

/-- C6: the freshly created configuration objects carry the documented
defaults (write buffer 4 MiB, 1000 open files, block size 4096, restart
interval 16, max file size 2 MiB, compression code 1, the three flags 0; read:
fill_cache 1 and verify_checksums 0; write: sync 0), and translating them
yields engine configurations with the same values. -/
theorem created_configurations_carry_documented_defaults :
    (leveldb_options_create.write_buffer_size = 4194304 ∧
      leveldb_options_create.max_open_files = 1000 ∧
      leveldb_options_create.block_size = 4096 ∧
      leveldb_options_create.block_restart_interval = 16 ∧
      leveldb_options_create.max_file_size = 2097152 ∧
      leveldb_options_create.compression = 1 ∧
      leveldb_options_create.create_if_missing = 0 ∧
      leveldb_options_create.error_if_exists = 0 ∧
      leveldb_options_create.paranoid_checks = 0) ∧
    (leveldb_readoptions_create.fill_cache = 1 ∧
      leveldb_readoptions_create.verify_checksums = 0) ∧
    leveldb_writeoptions_create.sync = 0 ∧
    convert_options (some leveldb_options_create) =
      { create_if_missing := false, error_if_exists := false, paranoid_checks := false,
        write_buffer_size := 4194304, max_open_files := 1000, block_size := 4096,
        block_restart_interval := 16, max_file_size := 2097152,
        compression := CompressionType.kSnappyCompression } ∧
    convert_read_options (some leveldb_readoptions_create) =
      { verify_checksums := false, fill_cache := true } ∧
    convert_write_options (some leveldb_writeoptions_create) = { sync := false } := by
  refine ⟨⟨?_, ?_, ?_, ?_, ?_, ?_, ?_, ?_, ?_⟩, ⟨?_, ?_⟩, ?_, ?_, ?_, ?_⟩ <;> decide

/-- C7: `convert_options` maps the compression field to no compression exactly
when the field is 0; every other value, 1 included, maps to the fast
compression mode, and so does an absent open-config. -/
theorem convert_options_compression (o : leveldb_options_t) :
    ((convert_options (some o)).compression = CompressionType.kNoCompression
        ↔ o.compression = 0) ∧
    ((convert_options (some o)).compression = CompressionType.kSnappyCompression
        ↔ o.compression ≠ 0) ∧
    (convert_options none).compression = CompressionType.kSnappyCompression := by
  refine ⟨?_, ?_, rfl⟩
  · by_cases h0 : o.compression = 0
    · simp [convert_options, h0]
    · by_cases h1 : o.compression = 1 <;> simp [convert_options, h0, h1]
  · by_cases h0 : o.compression = 0
    · simp [convert_options, h0]
    · by_cases h1 : o.compression = 1 <;> simp [convert_options, h0, h1]

/-- C8, as stated, fails: an open-config whose five numeric fields are 0 is
translated to an engine configuration whose five fields are the literal 0, not
the engine defaults. -/
theorem convert_options_keeps_zero_fields :
    (convert_options (some
        { create_if_missing := 0, error_if_exists := 0, paranoid_checks := 0,
          write_buffer_size := 0, max_open_files := 0, block_size := 0,
          block_restart_interval := 0, max_file_size := 0, compression := 1 }))
      = { create_if_missing := false, error_if_exists := false, paranoid_checks := false,
          write_buffer_size := 0, max_open_files := 0, block_size := 0,
          block_restart_interval := 0, max_file_size := 0,
          compression := CompressionType.kSnappyCompression } ∧
    Options.new.write_buffer_size = 4194304 ∧
    Options.new.max_open_files = 1000 ∧
    Options.new.block_size = 4096 ∧
    Options.new.block_restart_interval = 16 ∧
    Options.new.max_file_size = 2097152 := by
  refine ⟨?_, ?_, ?_, ?_, ?_, ?_⟩ <;> decide

/-- C8, amended: for every open-config that is present, `convert_options`
carries each of the five numeric fields over unchanged, the value 0 included,
and turns each flag into its truth value; the engine defaults are what it
yields only for an absent open-config. -/
theorem convert_options_carries_fields_unchanged (o : leveldb_options_t) :
    (convert_options (some o)).write_buffer_size = o.write_buffer_size ∧
    (convert_options (some o)).max_open_files = o.max_open_files ∧
    (convert_options (some o)).block_size = o.block_size ∧
    (convert_options (some o)).block_restart_interval = o.block_restart_interval ∧
    (convert_options (some o)).max_file_size = o.max_file_size ∧
    (convert_options (some o)).create_if_missing = intToBool o.create_if_missing ∧
    (convert_options (some o)).error_if_exists = intToBool o.error_if_exists ∧
    (convert_options (some o)).paranoid_checks = intToBool o.paranoid_checks ∧
    convert_options none = Options.new := by
  by_cases h0 : o.compression = 0
  · simp [convert_options, h0]
  · by_cases h1 : o.compression = 1 <;> simp [convert_options, h0, h1]

/-! ## Error channel -/

/-- C4, as stated, fails: when the engine refuses a `leveldb_put` with a status
whose text `Corruption: x\0y` holds a zero byte, the one Error that is created
carries `Corruption: x` and the terminator, not the same bytes as the text. -/
theorem error_message_cut_at_zero_byte :
    ((refusingDB { code := Code.kCorruption, msg := [120, 0, 121] }).Put
        (convert_write_options none) (Slice [1] 1) (Slice [2] 1) ()).1.ok = false ∧
    ((refusingDB { code := Code.kCorruption, msg := [120, 0, 121] }).Put
        (convert_write_options none) (Slice [1] 1) (Slice [2] 1) ()).1.ToString
      = ascii "Corruption: x" ++ [0, 121] ∧
    (leveldb_put (refusingDB { code := Code.kCorruption, msg := [120, 0, 121] })
        { db := () } none [1] 1 [2] 1 (some none) []).heap
      = [{ message := ascii "Corruption: x" ++ [0] }] ∧
    (leveldb_put (refusingDB { code := Code.kCorruption, msg := [120, 0, 121] })
        { db := () } none [1] 1 [2] 1 (some none) []).heap
      ≠ [{ message := c_str (ascii "Corruption: x" ++ [0, 121]) }] := by
  refine ⟨?_, ?_, ?_, ?_⟩ <;> decide

/-- C4, amended: for `leveldb_put`, `leveldb_delete` and `leveldb_write` called
with an error slot: if the engine status is ok, no Error object is created and
the slot is left as it was; if the engine status is not ok, exactly one Error
object is created, its message is the `strcpy` copy of the status text (the
bytes of the text before its first zero byte, then the terminator: the same C
string, and byte for byte the text plus the terminator when the text has no
zero byte), and the slot points to it.  Hence the slot points to an object
created by the call if and only if the engine operation failed. -/
theorem write_operations_error_channel {σ : Type} (E : DB σ) (db : leveldb_t σ)
    (options : Option leveldb_writeoptions_t) (key : Bytes) (keylen : Nat)
    (val : Bytes) (vallen : Nat) (batch : leveldb_writebatch_t)
    (slot : ErrPtr) (heap : Heap) :
    (((E.Put (convert_write_options options) (Slice key keylen) (Slice val vallen) db.db).1.ok = true →
        (leveldb_put E db options key keylen val vallen (some slot) heap).errptr = some slot ∧
        (leveldb_put E db options key keylen val vallen (some slot) heap).heap = heap) ∧
      ((E.Put (convert_write_options options) (Slice key keylen) (Slice val vallen) db.db).1.ok = false →
        (leveldb_put E db options key keylen val vallen (some slot) heap).errptr = some (some heap.length) ∧
        (leveldb_put E db options key keylen val vallen (some slot) heap).heap = heap ++ [{ message := strcpy (c_str (E.Put (convert_write_options options) (Slice key keylen) (Slice val vallen) db.db).1.ToString) }] ∧
        strcpy (c_str (E.Put (convert_write_options options) (Slice key keylen) (Slice val vallen) db.db).1.ToString)
          = List.takeWhile (fun b => b != 0) (E.Put (convert_write_options options) (Slice key keylen) (Slice val vallen) db.db).1.ToString ++ [0] ∧
        c_string (strcpy (c_str (E.Put (convert_write_options options) (Slice key keylen) (Slice val vallen) db.db).1.ToString)) = c_string (E.Put (convert_write_options options) (Slice key keylen) (Slice val vallen) db.db).1.ToString ∧
        ((∀ b ∈ (E.Put (convert_write_options options) (Slice key keylen) (Slice val vallen) db.db).1.ToString, b ≠ 0) →
          strcpy (c_str (E.Put (convert_write_options options) (Slice key keylen) (Slice val vallen) db.db).1.ToString) = c_str (E.Put (convert_write_options options) (Slice key keylen) (Slice val vallen) db.db).1.ToString)) ∧
      ((∃ i, (leveldb_put E db options key keylen val vallen (some slot) heap).errptr = some (some i) ∧ heap.length ≤ i ∧
          i < (leveldb_put E db options key keylen val vallen (some slot) heap).heap.length)
        ↔ (E.Put (convert_write_options options) (Slice key keylen) (Slice val vallen) db.db).1.ok = false)) ∧
    (((E.Delete (convert_write_options options) (Slice key keylen) db.db).1.ok = true →
        (leveldb_delete E db options key keylen (some slot) heap).errptr = some slot ∧
        (leveldb_delete E db options key keylen (some slot) heap).heap = heap) ∧
      ((E.Delete (convert_write_options options) (Slice key keylen) db.db).1.ok = false →
        (leveldb_delete E db options key keylen (some slot) heap).errptr = some (some heap.length) ∧
        (leveldb_delete E db options key keylen (some slot) heap).heap = heap ++ [{ message := strcpy (c_str (E.Delete (convert_write_options options) (Slice key keylen) db.db).1.ToString) }] ∧
        strcpy (c_str (E.Delete (convert_write_options options) (Slice key keylen) db.db).1.ToString)
          = List.takeWhile (fun b => b != 0) (E.Delete (convert_write_options options) (Slice key keylen) db.db).1.ToString ++ [0] ∧
        c_string (strcpy (c_str (E.Delete (convert_write_options options) (Slice key keylen) db.db).1.ToString)) = c_string (E.Delete (convert_write_options options) (Slice key keylen) db.db).1.ToString ∧
        ((∀ b ∈ (E.Delete (convert_write_options options) (Slice key keylen) db.db).1.ToString, b ≠ 0) →
          strcpy (c_str (E.Delete (convert_write_options options) (Slice key keylen) db.db).1.ToString) = c_str (E.Delete (convert_write_options options) (Slice key keylen) db.db).1.ToString)) ∧
      ((∃ i, (leveldb_delete E db options key keylen (some slot) heap).errptr = some (some i) ∧ heap.length ≤ i ∧
          i < (leveldb_delete E db options key keylen (some slot) heap).heap.length)
        ↔ (E.Delete (convert_write_options options) (Slice key keylen) db.db).1.ok = false)) ∧
    (((E.Write (convert_write_options options) batch.batch db.db).1.ok = true →
        (leveldb_write E db options batch (some slot) heap).errptr = some slot ∧
        (leveldb_write E db options batch (some slot) heap).heap = heap) ∧
      ((E.Write (convert_write_options options) batch.batch db.db).1.ok = false →
        (leveldb_write E db options batch (some slot) heap).errptr = some (some heap.length) ∧
        (leveldb_write E db options batch (some slot) heap).heap = heap ++ [{ message := strcpy (c_str (E.Write (convert_write_options options) batch.batch db.db).1.ToString) }] ∧
        strcpy (c_str (E.Write (convert_write_options options) batch.batch db.db).1.ToString)
          = List.takeWhile (fun b => b != 0) (E.Write (convert_write_options options) batch.batch db.db).1.ToString ++ [0] ∧
        c_string (strcpy (c_str (E.Write (convert_write_options options) batch.batch db.db).1.ToString)) = c_string (E.Write (convert_write_options options) batch.batch db.db).1.ToString ∧
        ((∀ b ∈ (E.Write (convert_write_options options) batch.batch db.db).1.ToString, b ≠ 0) →
          strcpy (c_str (E.Write (convert_write_options options) batch.batch db.db).1.ToString) = c_str (E.Write (convert_write_options options) batch.batch db.db).1.ToString)) ∧
      ((∃ i, (leveldb_write E db options batch (some slot) heap).errptr = some (some i) ∧ heap.length ≤ i ∧
          i < (leveldb_write E db options batch (some slot) heap).heap.length)
        ↔ (E.Write (convert_write_options options) batch.batch db.db).1.ok = false)) := by
  refine ⟨⟨?_, ?_, ?_⟩, ⟨?_, ?_, ?_⟩, ⟨?_, ?_, ?_⟩⟩
  · exact leveldb_put_of_ok E db options key keylen val vallen (some slot) heap
  · intro h
    exact ⟨(leveldb_put_of_fail E db options key keylen val vallen slot heap h).1,
      (leveldb_put_of_fail E db options key keylen val vallen slot heap h).2,
      strcpy_c_str_eq _, c_string_strcpy_c_str _, strcpy_c_str_of_zero_free _⟩
  · exact new_error_iff_failed _ heap _ _ (some slot) _
      (leveldb_put_of_ok E db options key keylen val vallen (some slot) heap)
      (leveldb_put_of_fail E db options key keylen val vallen slot heap)
  · exact leveldb_delete_of_ok E db options key keylen (some slot) heap
  · intro h
    exact ⟨(leveldb_delete_of_fail E db options key keylen slot heap h).1,
      (leveldb_delete_of_fail E db options key keylen slot heap h).2,
      strcpy_c_str_eq _, c_string_strcpy_c_str _, strcpy_c_str_of_zero_free _⟩
  · exact new_error_iff_failed _ heap _ _ (some slot) _
      (leveldb_delete_of_ok E db options key keylen (some slot) heap)
      (leveldb_delete_of_fail E db options key keylen slot heap)
  · exact leveldb_write_of_ok E db options batch (some slot) heap
  · intro h
    exact ⟨(leveldb_write_of_fail E db options batch slot heap h).1,
      (leveldb_write_of_fail E db options batch slot heap h).2,
      strcpy_c_str_eq _, c_string_strcpy_c_str _, strcpy_c_str_of_zero_free _⟩
  · exact new_error_iff_failed _ heap _ _ (some slot) _
      (leveldb_write_of_ok E db options batch (some slot) heap)
      (leveldb_write_of_fail E db options batch slot heap)

set_option maxRecDepth 10000 in
/-- Witness for C4: on the reference engine, a refused `leveldb_put` stores one
new Error with the full status text in an empty slot, and an accepted
`leveldb_write` leaves slot and heap alone. -/
theorem write_operations_error_channel_witness :
    ((leveldb_put memDB { db := { entries := [], failing := true } } none
        [1] 1 [2] 1 (some none) []).errptr = some (some 0) ∧
      (leveldb_put memDB { db := { entries := [], failing := true } } none
        [1] 1 [2] 1 (some none) []).heap
        = [{ message := c_str (ascii "IO error: store is read-only") }]) ∧
    ((leveldb_write memDB { db := { entries := [], failing := false } } none
        { batch := { rep := [BatchOp.put [1] [2]] } } (some none) []).errptr = some none ∧
      (leveldb_write memDB { db := { entries := [], failing := false } } none
        { batch := { rep := [BatchOp.put [1] [2]] } } (some none) []).heap = []) :=
  ⟨⟨((write_operations_error_channel memDB { db := { entries := [], failing := true } }
        none [1] 1 [2] 1 { batch := { rep := [] } } none []).1.2.1 (by decide)).1,
      (((write_operations_error_channel memDB { db := { entries := [], failing := true } }
        none [1] 1 [2] 1 { batch := { rep := [] } } none []).1.2.1 (by decide)).2.1).trans
        (congrArg (fun m => [leveldb_error_t.mk m])
          (((write_operations_error_channel memDB
            { db := { entries := [], failing := true } }
            none [1] 1 [2] 1 { batch := { rep := [] } } none []).1.2.1
              (by decide)).2.2.2.2 (by decide)))⟩,
    (write_operations_error_channel memDB { db := { entries := [], failing := false } }
      none [1] 1 [2] 1 { batch := { rep := [BatchOp.put [1] [2]] } } none []).2.2.1
        (by decide)⟩

/-- C3: `leveldb_open` returns a null handle if and only if the engine's open
status is not ok; when it fails and an error slot is supplied, the slot points
to a new Error whose message is the `strcpy` copy of the engine status text
and is a non-empty C string; when it succeeds, the handle wraps the pointer the
engine stored and slot and heap are untouched.  In particular, with
`create_if_missing = 0` on a path the engine refuses to open without creating,
no handle is returned and the slot holds a non-empty Error. -/
theorem leveldb_open_contract {D : Type} (Open : Options → Bytes → Status × D)
    (name : Bytes) (options : Option leveldb_options_t)
    (errptr : Option ErrPtr) (slot : ErrPtr) (heap : Heap) :
    ((leveldb_open Open name options errptr heap).result = none
      ↔ (Open (convert_options options) (c_string name)).1.ok = false) ∧
    ((Open (convert_options options) (c_string name)).1.ok = false →
      (leveldb_open Open name options (some slot) heap).errptr = some (some heap.length) ∧
      (leveldb_open Open name options (some slot) heap).heap
        = heap ++ [{ message := strcpy (c_str (Open (convert_options options) (c_string name)).1.ToString) }] ∧
      c_string (strcpy (c_str (Open (convert_options options) (c_string name)).1.ToString))
        = c_string (Open (convert_options options) (c_string name)).1.ToString ∧
      ((∀ b ∈ (Open (convert_options options) (c_string name)).1.ToString, b ≠ 0) →
        strcpy (c_str (Open (convert_options options) (c_string name)).1.ToString)
          = c_str (Open (convert_options options) (c_string name)).1.ToString) ∧
      c_string (strcpy (c_str (Open (convert_options options) (c_string name)).1.ToString)) ≠ []) ∧
    ((Open (convert_options options) (c_string name)).1.ok = true →
      (leveldb_open Open name options errptr heap).result
        = some { db := (Open (convert_options options) (c_string name)).2 } ∧
      (leveldb_open Open name options errptr heap).errptr = errptr ∧
      (leveldb_open Open name options errptr heap).heap = heap) ∧
    (∀ o : leveldb_options_t, options = some o → o.create_if_missing = 0 →
      (∀ opts : Options, opts.create_if_missing = false → (Open opts (c_string name)).1.ok = false) →
      (leveldb_open Open name options (some slot) heap).result = none ∧
      (leveldb_open Open name options (some slot) heap).errptr = some (some heap.length) ∧
      ∃ e : leveldb_error_t,
        (leveldb_open Open name options (some slot) heap).heap = heap ++ [e] ∧
        c_string e.message ≠ []) := by
  refine ⟨?_, ?_, ?_, ?_⟩
  · cases hok : (Open (convert_options options) (c_string name)).1.ok with
    | false =>
      cases errptr with
      | none => simp [(leveldb_open_of_fail_null Open name options heap hok).1]
      | some sl => simp [(leveldb_open_of_fail Open name options sl heap hok).1]
    | true => simp [(leveldb_open_of_ok Open name options errptr heap hok).1]
  · intro h
    exact ⟨(leveldb_open_of_fail Open name options slot heap h).2.1,
      (leveldb_open_of_fail Open name options slot heap h).2.2,
      c_string_strcpy_c_str _, strcpy_c_str_of_zero_free _, c_string_error_ne_nil _ h⟩
  · exact leveldb_open_of_ok Open name options errptr heap
  · intro o ho hcreate hmissing
    have hflag : (convert_options options).create_if_missing = false := by
      rw [ho, convert_options_create_if_missing, hcreate]
      rfl
    have h := hmissing (convert_options options) hflag
    exact ⟨(leveldb_open_of_fail Open name options slot heap h).1,
      (leveldb_open_of_fail Open name options slot heap h).2.1,
      _, (leveldb_open_of_fail Open name options slot heap h).2.2,
      c_string_error_ne_nil _ h⟩

set_option maxRecDepth 10000 in
/-- Witness for C3: in an environment without stores, opening `db` with the
freshly created options (`create_if_missing = 0`) returns no handle and stores
a new, non-empty Error in the empty slot; in an environment where the store
`db` exists, the same call returns a handle on the opened engine and leaves the
slot empty. -/
theorem leveldb_open_contract_witness :
    ((leveldb_open (memOpen []) (ascii "db") (some leveldb_options_create)
        (some none) []).result = none ∧
      (leveldb_open (memOpen []) (ascii "db") (some leveldb_options_create)
        (some none) []).errptr = some (some 0) ∧
      ∃ e : leveldb_error_t,
        (leveldb_open (memOpen []) (ascii "db") (some leveldb_options_create)
          (some none) []).heap = [] ++ [e] ∧
        c_string e.message ≠ []) ∧
    ((leveldb_open (memOpen [ascii "db"]) (ascii "db") (some leveldb_options_create)
        (some none) []).result
        = some { db := (memOpen [ascii "db"]
            (convert_options (some leveldb_options_create)) (c_string (ascii "db"))).2 } ∧
      (leveldb_open (memOpen [ascii "db"]) (ascii "db") (some leveldb_options_create)
        (some none) []).errptr = some none ∧
      (leveldb_open (memOpen [ascii "db"]) (ascii "db") (some leveldb_options_create)
        (some none) []).heap = []) :=
  ⟨(leveldb_open_contract (memOpen []) (ascii "db") (some leveldb_options_create)
      (some none) none []).2.2.2 leveldb_options_create rfl (by decide)
      (fun opts h => by simp [memOpen, h, Status.ok, Status.InvalidArgument]),
    (leveldb_open_contract (memOpen [ascii "db"]) (ascii "db")
      (some leveldb_options_create) (some none) none []).2.2.1 (by decide)⟩

/-- C5, as stated, fails: a slot that already points to Error 0 is overwritten
by a refused `leveldb_put`, and by a `leveldb_get` of an absent key, with a
pointer to the newly created Error 1. -/
theorem populated_slot_is_overwritten_on_failure :
    (leveldb_put memDB { db := { entries := [], failing := true } } none
      [1] 1 [2] 1 (some (some 0)) [{ message := [65, 0] }]).errptr = some (some 1) ∧
    (leveldb_get memDB { db := { entries := [], failing := false } } none
      [1] 1 none (some (some 0)) [{ message := [65, 0] }]).errptr = some (some 1) := by
  constructor <;> rfl

/-- C5, amended: for `leveldb_open`, `leveldb_put`, `leveldb_get`,
`leveldb_delete`, `leveldb_write` and `leveldb_iter_get_error`, a slot that
already points to an Error still points to that Error after a call whose engine
status is ok; after a call whose engine status is not ok it points to the newly
created Error instead. -/
theorem populated_slot_kept_on_success_replaced_on_failure {σ ι D : Type}
    (E : DB σ) (Open : Options → Bytes → Status × D) (status : ι → Status)
    (db : leveldb_t σ) (iter : leveldb_iterator_t ι) (name : Bytes)
    (oo : Option leveldb_options_t) (wo : Option leveldb_writeoptions_t)
    (ro : Option leveldb_readoptions_t) (key : Bytes) (keylen : Nat)
    (val : Bytes) (vallen : Nat) (vl : Option Nat) (batch : leveldb_writebatch_t)
    (p : Nat) (heap : Heap) (hp : p < heap.length) :
    (((Open (convert_options oo) (c_string name)).1.ok = true →
        (leveldb_open Open name oo (some (some p)) heap).errptr = some (some p)) ∧
      ((Open (convert_options oo) (c_string name)).1.ok = false →
        (leveldb_open Open name oo (some (some p)) heap).errptr = some (some heap.length) ∧
        (leveldb_open Open name oo (some (some p)) heap).errptr ≠ some (some p))) ∧
    (((E.Put (convert_write_options wo) (Slice key keylen) (Slice val vallen) db.db).1.ok = true →
        (leveldb_put E db wo key keylen val vallen (some (some p)) heap).errptr = some (some p)) ∧
      ((E.Put (convert_write_options wo) (Slice key keylen) (Slice val vallen) db.db).1.ok = false →
        (leveldb_put E db wo key keylen val vallen (some (some p)) heap).errptr = some (some heap.length) ∧
        (leveldb_put E db wo key keylen val vallen (some (some p)) heap).errptr ≠ some (some p))) ∧
    (((E.Get (convert_read_options ro) (Slice key keylen) db.db).1.ok = true →
        (leveldb_get E db ro key keylen vl (some (some p)) heap).errptr = some (some p)) ∧
      ((E.Get (convert_read_options ro) (Slice key keylen) db.db).1.ok = false →
        (leveldb_get E db ro key keylen vl (some (some p)) heap).errptr = some (some heap.length) ∧
        (leveldb_get E db ro key keylen vl (some (some p)) heap).errptr ≠ some (some p))) ∧
    (((E.Delete (convert_write_options wo) (Slice key keylen) db.db).1.ok = true →
        (leveldb_delete E db wo key keylen (some (some p)) heap).errptr = some (some p)) ∧
      ((E.Delete (convert_write_options wo) (Slice key keylen) db.db).1.ok = false →
        (leveldb_delete E db wo key keylen (some (some p)) heap).errptr = some (some heap.length) ∧
        (leveldb_delete E db wo key keylen (some (some p)) heap).errptr ≠ some (some p))) ∧
    (((E.Write (convert_write_options wo) batch.batch db.db).1.ok = true →
        (leveldb_write E db wo batch (some (some p)) heap).errptr = some (some p)) ∧
      ((E.Write (convert_write_options wo) batch.batch db.db).1.ok = false →
        (leveldb_write E db wo batch (some (some p)) heap).errptr = some (some heap.length) ∧
        (leveldb_write E db wo batch (some (some p)) heap).errptr ≠ some (some p))) ∧
    (((status iter.iter).ok = true →
        (leveldb_iter_get_error status iter (some (some p)) heap).errptr = some (some p)) ∧
      ((status iter.iter).ok = false →
        (leveldb_iter_get_error status iter (some (some p)) heap).errptr = some (some heap.length) ∧
        (leveldb_iter_get_error status iter (some (some p)) heap).errptr ≠ some (some p))) := by
  refine ⟨⟨?_, ?_⟩, ⟨?_, ?_⟩, ⟨?_, ?_⟩, ⟨?_, ?_⟩, ⟨?_, ?_⟩, ⟨?_, ?_⟩⟩
  · intro h
    exact (leveldb_open_of_ok Open name oo (some (some p)) heap h).2.1
  · intro h
    have hnew := (leveldb_open_of_fail Open name oo (some p) heap h).2.1
    refine ⟨hnew, ?_⟩
    rw [hnew]
    intro heq
    simp only [Option.some.injEq] at heq
    omega
  · intro h
    exact (leveldb_put_of_ok E db wo key keylen val vallen (some (some p)) heap h).1
  · intro h
    have hnew := (leveldb_put_of_fail E db wo key keylen val vallen (some p) heap h).1
    refine ⟨hnew, ?_⟩
    rw [hnew]
    intro heq
    simp only [Option.some.injEq] at heq
    omega
  · intro h
    exact (leveldb_get_of_ok E db ro key keylen vl (some (some p)) heap h).2.2.1
  · intro h
    have hnew := (leveldb_get_of_fail E db ro key keylen vl (some p) heap h).2.2.1
    refine ⟨hnew, ?_⟩
    rw [hnew]
    intro heq
    simp only [Option.some.injEq] at heq
    omega
  · intro h
    exact (leveldb_delete_of_ok E db wo key keylen (some (some p)) heap h).1
  · intro h
    have hnew := (leveldb_delete_of_fail E db wo key keylen (some p) heap h).1
    refine ⟨hnew, ?_⟩
    rw [hnew]
    intro heq
    simp only [Option.some.injEq] at heq
    omega
  · intro h
    exact (leveldb_write_of_ok E db wo batch (some (some p)) heap h).1
  · intro h
    have hnew := (leveldb_write_of_fail E db wo batch (some p) heap h).1
    refine ⟨hnew, ?_⟩
    rw [hnew]
    intro heq
    simp only [Option.some.injEq] at heq
    omega
  · intro h
    exact (leveldb_iter_get_error_of_ok status iter (some (some p)) heap h).1
  · intro h
    have hnew := (leveldb_iter_get_error_of_fail status iter (some p) heap h).1
    refine ⟨hnew, ?_⟩
    rw [hnew]
    intro heq
    simp only [Option.some.injEq] at heq
    omega

/-- Witness for C5: on the reference engine with Error 0 already in the slot,
an accepted `leveldb_put` leaves the slot pointing to Error 0 and a refused one
makes it point to the new Error 1. -/
theorem populated_slot_kept_on_success_replaced_on_failure_witness :
    (leveldb_put memDB { db := { entries := [], failing := false } } none
      [1] 1 [2] 1 (some (some 0)) [{ message := [65, 0] }]).errptr = some (some 0) ∧
    (leveldb_put memDB { db := { entries := [], failing := true } } none
      [1] 1 [2] 1 (some (some 0)) [{ message := [65, 0] }]).errptr = some (some 1) :=
  ⟨(populated_slot_kept_on_success_replaced_on_failure memDB (memOpen [])
      (fun _ : Unit => Status.OK) { db := { entries := [], failing := false } }
      { iter := () } [] none none none [1] 1 [2] 1 none { batch := { rep := [] } }
      0 [{ message := [65, 0] }] (by decide)).2.1.1 (by decide),
    ((populated_slot_kept_on_success_replaced_on_failure memDB (memOpen [])
      (fun _ : Unit => Status.OK) { db := { entries := [], failing := true } }
      { iter := () } [] none none none [1] 1 [2] 1 none { batch := { rep := [] } }
      0 [{ message := [65, 0] }] (by decide)).2.1.2 (by decide)).1⟩

/-! ## Point reads and writes -/

/-- C1, as stated, fails: on the empty reference store, `leveldb_get` of the
key `[1]`, which is not stored, returns null but fills the empty error slot
with a new Error whose message is the text of the engine's NotFound status. -/
theorem leveldb_get_absent_key_populates_error :
    memView { entries := [], failing := false } [1] = none ∧
    (leveldb_get memDB { db := { entries := [], failing := false } } none
      [1] 1 (some 7) (some none) []).result = none ∧
    (leveldb_get memDB { db := { entries := [], failing := false } } none
      [1] 1 (some 7) (some none) []).errptr = some (some 0) ∧
    (leveldb_get memDB { db := { entries := [], failing := false } } none
      [1] 1 (some 7) (some none) []).heap
      = [{ message := c_str (ascii "NotFound: ") }] := by
  refine ⟨?_, ?_, ?_, ?_⟩ <;> rfl

/-- C1, amended: for every database state and every key that is not stored in
it, `leveldb_get` returns an absent (null) result and leaves the length slot
alone; the error slot stays unpopulated only when the caller passes no slot.
When a slot is passed, the engine's NotFound status does produce an Error: the
slot points to a new Error whose message is the `strcpy` copy of the status
text, a non-empty C string. -/
theorem leveldb_get_absent_key {σ : Type} (E : DB σ) (view : σ → Bytes → Option Bytes)
    (hC : KVContract E view) (db : leveldb_t σ)
    (options : Option leveldb_readoptions_t) (k : Bytes)
    (vallen : Option Nat) (slot : ErrPtr) (heap : Heap)
    (habsent : view db.db k = none) :
    (E.Get (convert_read_options options) (Slice k k.length) db.db).1.IsNotFound = true ∧
    ((leveldb_get E db options k k.length vallen none heap).result = none ∧
      (leveldb_get E db options k k.length vallen none heap).vallen = vallen ∧
      (leveldb_get E db options k k.length vallen none heap).errptr = none ∧
      (leveldb_get E db options k k.length vallen none heap).heap = heap) ∧
    ((leveldb_get E db options k k.length vallen (some slot) heap).result = none ∧
      (leveldb_get E db options k k.length vallen (some slot) heap).vallen = vallen ∧
      (leveldb_get E db options k k.length vallen (some slot) heap).errptr = some (some heap.length) ∧
      (leveldb_get E db options k k.length vallen (some slot) heap).heap
        = heap ++ [{ message := strcpy (c_str (E.Get (convert_read_options options) (Slice k k.length) db.db).1.ToString) }] ∧
      c_string (strcpy (c_str (E.Get (convert_read_options options) (Slice k k.length) db.db).1.ToString)) ≠ []) := by
  have hk : Slice k k.length = k := by simp [Slice]
  have hnf : (E.Get (convert_read_options options) (Slice k k.length) db.db).1.IsNotFound = true := by
    rw [hk]
    exact hC.get_absent (convert_read_options options) k db.db habsent
  have hok := ok_false_of_IsNotFound _ hnf
  refine ⟨hnf, leveldb_get_of_fail_null E db options k k.length vallen heap hok, ?_⟩
  obtain ⟨h1, h2, h3, h4⟩ := leveldb_get_of_fail E db options k k.length vallen slot heap hok
  exact ⟨h1, h2, h3, h4, c_string_error_ne_nil _ hok⟩

/-- Witness for C1: on the empty reference store, with the key `[1]` and an
empty error slot. -/
theorem leveldb_get_absent_key_witness :
    (leveldb_get memDB { db := { entries := [], failing := false } } none
      [1] 1 (some 7) (some none) []).result = none ∧
    (leveldb_get memDB { db := { entries := [], failing := false } } none
      [1] 1 (some 7) (some none) []).errptr = some (some 0) :=
  ⟨(leveldb_get_absent_key memDB memView memDB_contract
      { db := { entries := [], failing := false } } none [1] (some 7) none []
      (by decide)).2.2.1,
    (leveldb_get_absent_key memDB memView memDB_contract
      { db := { entries := [], failing := false } } none [1] (some 7) none []
      (by decide)).2.2.2.2.1⟩

/-- C2: for every key `k` and value `v` (any bytes, empty or with zero bytes,
whatever memory follows them behind the pointers), after a successful
`leveldb_put` with lengths `|k|` and `|v|`, a following `leveldb_get` of `k`
with a length slot returns a buffer holding exactly `v`, reports the length
`|v|`, and populates no error: slot and heap are as the caller left them. -/
theorem put_then_get_roundtrip {σ : Type} (E : DB σ) (view : σ → Bytes → Option Bytes)
    (hC : KVContract E view) (db : leveldb_t σ)
    (wo : Option leveldb_writeoptions_t) (ro : Option leveldb_readoptions_t)
    (k kRest v vRest : Bytes) (n : Nat) (e1 e2 : Option ErrPtr) (heap : Heap)
    (hput : (E.Put (convert_write_options wo) (Slice (k ++ kRest) k.length)
      (Slice (v ++ vRest) v.length) db.db).1.ok = true) :
    (leveldb_put E db wo (k ++ kRest) k.length (v ++ vRest) v.length e1 heap).errptr = e1 ∧
    (leveldb_put E db wo (k ++ kRest) k.length (v ++ vRest) v.length e1 heap).heap = heap ∧
    (leveldb_get E
        (leveldb_put E db wo (k ++ kRest) k.length (v ++ vRest) v.length e1 heap).db
        ro (k ++ kRest) k.length (some n) e2
        (leveldb_put E db wo (k ++ kRest) k.length (v ++ vRest) v.length e1 heap).heap).result = some v ∧
    (leveldb_get E
        (leveldb_put E db wo (k ++ kRest) k.length (v ++ vRest) v.length e1 heap).db
        ro (k ++ kRest) k.length (some n) e2
        (leveldb_put E db wo (k ++ kRest) k.length (v ++ vRest) v.length e1 heap).heap).vallen = some v.length ∧
    (leveldb_get E
        (leveldb_put E db wo (k ++ kRest) k.length (v ++ vRest) v.length e1 heap).db
        ro (k ++ kRest) k.length (some n) e2
        (leveldb_put E db wo (k ++ kRest) k.length (v ++ vRest) v.length e1 heap).heap).errptr = e2 ∧
    (leveldb_get E
        (leveldb_put E db wo (k ++ kRest) k.length (v ++ vRest) v.length e1 heap).db
        ro (k ++ kRest) k.length (some n) e2
        (leveldb_put E db wo (k ++ kRest) k.length (v ++ vRest) v.length e1 heap).heap).heap = heap := by
  obtain ⟨hp1, hp2⟩ :=
    leveldb_put_of_ok E db wo (k ++ kRest) k.length (v ++ vRest) v.length e1 heap hput
  have hdb := leveldb_put_db E db wo (k ++ kRest) k.length (v ++ vRest) v.length e1 heap
  have hview := hC.put_ok (convert_write_options wo) (Slice (k ++ kRest) k.length)
    (Slice (v ++ vRest) v.length) db.db hput
  rw [Slice_append_length, Slice_append_length] at hview hdb
  have hstored : view (leveldb_put E db wo (k ++ kRest) k.length (v ++ vRest) v.length e1 heap).db.db k = some v := by
    rw [hdb, hview]
    simp
  obtain ⟨hst, hval⟩ := hC.get_found (convert_read_options ro) k _ v hstored
  have hgok : (E.Get (convert_read_options ro) (Slice (k ++ kRest) k.length)
      (leveldb_put E db wo (k ++ kRest) k.length (v ++ vRest) v.length e1 heap).db.db).1.ok = true := by
    rw [Slice_append_length]
    exact hst
  obtain ⟨g1, g2, g3, g4⟩ := leveldb_get_of_ok E (leveldb_put E db wo (k ++ kRest) k.length (v ++ vRest) v.length e1 heap).db ro (k ++ kRest) k.length
    (some n) e2 (leveldb_put E db wo (k ++ kRest) k.length (v ++ vRest) v.length e1 heap).heap hgok
  rw [Slice_append_length] at g1 g2
  rw [hval] at g1 g2
  exact ⟨hp1, hp2, g1, g2, g3, g4.trans hp2⟩

/-- Witness for C2: on the reference engine, the key `[0, 1]` and the value
`[2, 0, 3]`, both with a zero byte and with further bytes behind the pointers. -/
theorem put_then_get_roundtrip_witness :
    (leveldb_get memDB
      (leveldb_put memDB { db := { entries := [], failing := false } } none
        ([0, 1] ++ [9]) 2 ([2, 0, 3] ++ [9, 9]) 3 (some none) []).db
      none ([0, 1] ++ [9]) 2 (some 0) (some none)
      (leveldb_put memDB { db := { entries := [], failing := false } } none
        ([0, 1] ++ [9]) 2 ([2, 0, 3] ++ [9, 9]) 3 (some none) []).heap).result
      = some [2, 0, 3] :=
  (put_then_get_roundtrip memDB memView memDB_contract
    { db := { entries := [], failing := false } } none none
    [0, 1] [9] [2, 0, 3] [9, 9] 0 (some none) (some none) [] (by decide)).2.2.1

/-! ## Mutation batches -/

/-- C9: the batch built by `put(a, v1); delete(a); put(a, v2)` holds these three
entries in call order; applying it with `leveldb_write` leaves its entries
unchanged (only `leveldb_writebatch_clear` empties it); and when the write
succeeds, a following `leveldb_get(a)` returns exactly `v2` with length `|v2|`
and populates no error. -/
theorem batch_put_delete_put {σ : Type} (E : DB σ) (view : σ → Bytes → Option Bytes)
    (hC : KVContract E view) (db : leveldb_t σ)
    (wo : Option leveldb_writeoptions_t) (ro : Option leveldb_readoptions_t)
    (b0 : leveldb_writebatch_t) (a v1 v2 : Bytes) (n : Nat)
    (e1 e2 : Option ErrPtr) (heap : Heap) :
    (putDeletePut b0 a v1 v2).batch.rep
      = [BatchOp.put a v1, BatchOp.delete a, BatchOp.put a v2] ∧
    (leveldb_write E db wo (putDeletePut b0 a v1 v2) e1 heap).batch = putDeletePut b0 a v1 v2 ∧
    (leveldb_writebatch_clear (leveldb_write E db wo (putDeletePut b0 a v1 v2) e1 heap).batch).batch.rep
      = [] ∧
    ((E.Write (convert_write_options wo) (putDeletePut b0 a v1 v2).batch db.db).1.ok = true →
      (leveldb_get E (leveldb_write E db wo (putDeletePut b0 a v1 v2) e1 heap).db
        ro a a.length (some n) e2
        (leveldb_write E db wo (putDeletePut b0 a v1 v2) e1 heap).heap).result = some v2 ∧
      (leveldb_get E (leveldb_write E db wo (putDeletePut b0 a v1 v2) e1 heap).db
        ro a a.length (some n) e2
        (leveldb_write E db wo (putDeletePut b0 a v1 v2) e1 heap).heap).vallen = some v2.length ∧
      (leveldb_get E (leveldb_write E db wo (putDeletePut b0 a v1 v2) e1 heap).db
        ro a a.length (some n) e2
        (leveldb_write E db wo (putDeletePut b0 a v1 v2) e1 heap).heap).errptr = e2 ∧
      (leveldb_get E (leveldb_write E db wo (putDeletePut b0 a v1 v2) e1 heap).db
        ro a a.length (some n) e2
        (leveldb_write E db wo (putDeletePut b0 a v1 v2) e1 heap).heap).heap = heap) := by
  have hrep : (putDeletePut b0 a v1 v2).batch.rep
      = [BatchOp.put a v1, BatchOp.delete a, BatchOp.put a v2] := by
    simp [putDeletePut, leveldb_writebatch_put, leveldb_writebatch_delete,
      leveldb_writebatch_clear, WriteBatch.Put, WriteBatch.Delete, WriteBatch.Clear, Slice]
  obtain ⟨hdb, hb⟩ := leveldb_write_db_batch E db wo (putDeletePut b0 a v1 v2) e1 heap
  have hbatch : (leveldb_write E db wo (putDeletePut b0 a v1 v2) e1 heap).batch
      = putDeletePut b0 a v1 v2 := by
    have h := hb.trans (hC.write_batch (convert_write_options wo)
      (putDeletePut b0 a v1 v2).batch db.db)
    cases hw : (leveldb_write E db wo (putDeletePut b0 a v1 v2) e1 heap).batch with
    | mk wb =>
      cases hq : putDeletePut b0 a v1 v2 with
      | mk qb =>
        rw [hw, hq] at h
        simp only at h
        rw [h]
  refine ⟨hrep, hbatch, rfl, ?_⟩
  intro hok
  have hview := hC.write_ok (convert_write_options wo) (putDeletePut b0 a v1 v2).batch
    db.db hok
  rw [hrep] at hview
  have hstored : view (leveldb_write E db wo (putDeletePut b0 a v1 v2) e1 heap).db.db a = some v2 := by
    rw [hdb, hview]
    simp [applyOp]
  obtain ⟨hst, hval⟩ := hC.get_found (convert_read_options ro) a _ v2 hstored
  have hk : Slice a a.length = a := by simp [Slice]
  have hgok : (E.Get (convert_read_options ro) (Slice a a.length)
      (leveldb_write E db wo (putDeletePut b0 a v1 v2) e1 heap).db.db).1.ok = true := by
    rw [hk]
    exact hst
  obtain ⟨g1, g2, g3, g4⟩ := leveldb_get_of_ok E (leveldb_write E db wo (putDeletePut b0 a v1 v2) e1 heap).db ro a a.length
    (some n) e2 (leveldb_write E db wo (putDeletePut b0 a v1 v2) e1 heap).heap hgok
  rw [hk, hval] at g1 g2
  exact ⟨g1, g2, g3, g4.trans (leveldb_write_of_ok E db wo _ e1 heap hok).2⟩

/-- Witness for C9: on the reference engine already holding `a = [9]`, with
`a = [7]`, `v1 = [1]`, `v2 = [2]` and a batch that held an older entry before
the clear. -/
theorem batch_put_delete_put_witness :
    (leveldb_get memDB
      (leveldb_write memDB { db := { entries := [([7], [9])], failing := false } } none
        (putDeletePut { batch := { rep := [BatchOp.delete [5]] } } [7] [1] [2])
        (some none) []).db
      none [7] 1 (some 0) (some none)
      (leveldb_write memDB { db := { entries := [([7], [9])], failing := false } } none
        (putDeletePut { batch := { rep := [BatchOp.delete [5]] } } [7] [1] [2])
        (some none) []).heap).result = some [2] :=
  ((batch_put_delete_put memDB memView memDB_contract
    { db := { entries := [([7], [9])], failing := false } } none none
    { batch := { rep := [BatchOp.delete [5]] } } [7] [1] [2] 0 (some none) (some none) []
    ).2.2.2 (by decide)).1

/-- C10: for every batch built, after a clear, by any sequence of
`leveldb_writebatch_put` / `leveldb_writebatch_delete` calls and every visitor
with both callbacks supplied, `leveldb_writebatch_iterate` runs exactly one
callback per entry in append order: the put callback with the key and value
bytes and lengths for a Put, the delete callback with the key, a null value and
length 0 for a Delete; the state pointer is passed to every invocation and the
batch is returned unchanged.  With recording callbacks the log grows by exactly
the expected invocations of the entries, in order. -/
theorem batch_iterate_replays_in_append_order {P W : Type} (b0 : leveldb_writebatch_t)
    (calls : List BatchCall) (state : P)
    (put_handler delete_handler : leveldb_batch_handler_t P W) (w : W)
    (log : List (Invocation P)) :
    (calls.foldl BatchCall.run (leveldb_writebatch_clear b0)).batch.rep
      = calls.map BatchCall.entry ∧
    leveldb_writebatch_iterate (calls.foldl BatchCall.run (leveldb_writebatch_clear b0))
        state (some put_handler) (some delete_handler) w
      = ((calls.foldl BatchCall.run (leveldb_writebatch_clear b0)),
          calls.foldl (replayCall state put_handler delete_handler) w) ∧
    leveldb_writebatch_iterate (calls.foldl BatchCall.run (leveldb_writebatch_clear b0))
        state (some recordPut) (some recordDelete) log
      = ((calls.foldl BatchCall.run (leveldb_writebatch_clear b0)),
          log ++ calls.map (fun c => expectedInvocation state c.entry)) := by
  have hrep : (calls.foldl BatchCall.run (leveldb_writebatch_clear b0)).batch.rep
      = calls.map BatchCall.entry := by
    rw [foldl_run_rep]
    simp [leveldb_writebatch_clear, WriteBatch.Clear]
  refine ⟨hrep, ?_, ?_⟩
  · simp only [leveldb_writebatch_iterate, WriteBatch.Iterate, hrep, List.foldl_map]
    congr 1
    congr 1
    funext acc c
    cases c <;> simp [BatchCall.entry, BatchHandler, replayCall]
  · simp only [leveldb_writebatch_iterate, WriteBatch.Iterate, hrep, List.foldl_map]
    congr 1
    clear hrep
    generalize log = l
    induction calls generalizing l with
    | nil => simp
    | cons c rest ih =>
      rw [List.foldl_cons, ih]
      cases c <;>
        simp [BatchCall.entry, BatchHandler, recordPut, recordDelete, expectedInvocation]

end LevelDBWrapper
